import Mathlib

set_option maxHeartbeats 1000000

namespace RealmCli

/-- Deployment status values of the realm client (realm.DeploymentStatusCreated,
DeploymentStatusPending, DeploymentStatusSuccessful, DeploymentStatusFailed). -/
inductive DeploymentStatus
  | created
  | pending
  | successful
  | failed
deriving DecidableEq, Repr

/-- A deployment as observed by the push command: identifier and current status
(realm.AppDeployment). -/
structure Deployment where
  id : String
  status : DeploymentStatus
deriving DecidableEq, Repr

/-- An application draft handle (realm.AppDraft): only the identifier is used by
the push flow. -/
structure AppDraft where
  id : String
deriving DecidableEq, Repr

def AppDraft.empty : AppDraft := ⟨""⟩

/-- A created application (realm.App): only the identifier is used by the flow. -/
structure App where
  id : String
deriving DecidableEq, Repr

def App.empty : App := ⟨""⟩

/-- Modelled from the spec: realm client errors (realm.ServerError and plain Go
errors are not under src/). A server error carries a distinguishable error code;
anything else is a plain error value. -/
inductive GoError
  | server (code : String)
  | simple (msg : String)
deriving DecidableEq, Repr

/-- Modelled from the spec: realm.ErrCodeDraftAlreadyExists, the distinguishable
draft-conflict code signalled by the server when a draft already exists. -/
def errCodeDraftAlreadyExists : String := "DraftAlreadyExists"

/-- Mirrors the type assertion and code test in createNewDraft: the error is the
conflict signal exactly when it is a realm.ServerError whose Code equals
realm.ErrCodeDraftAlreadyExists. -/
def GoError.isDraftConflict : GoError → Bool
  | .server code => code == errCodeDraftAlreadyExists
  | .simple _ => false

/-- Observable actions of one handler run: remote client calls, interactive
prompts, and printed logs, in the order they happen. -/
inductive Event
  | callDiff
  | callHostingAssets
  | callCreateApp (groupID : String) (name : String) (location : String) (deploymentModel : String)
  | callCreateDraft
  | callDraftFetch
  | callDiffDraft (draftID : String)
  | callDiscardDraft (draftID : String)
  | callImport
  | callDeployDraft (draftID : String)
  | callDeployment (deploymentID : String)
  | callImportDependencies
  | callUploadHostingAssets
  | callCacheInvalidate
  | textLog (msg : String)
  | warningLog (msg : String)
  | followupLog (msg : String)
  | diffLog (lines : List String)
  | promptConfirm (msg : String)
  | promptInput (msg : String)
deriving DecidableEq, Repr

/-- Capability-queried local application metadata (the namer, locationer and
deploymentModeler interface checks on app.AppData): a field is none when the
underlying data does not implement the corresponding interface. -/
structure AppData where
  name : Option String
  location : Option String
  deploymentModel : Option String
deriving DecidableEq, Repr

/-- Result of the name capability query followed by the zero value default, as in
createNewApp: name stays the empty string when the capability is absent. -/
def derivedName (a : Option AppData) : String := ((a.bind AppData.name).getD (""))

/-- Result of the location capability query in createNewApp. -/
def derivedLocation (a : Option AppData) : String := ((a.bind AppData.location).getD (""))

/-- Result of the deployment-model capability query in createNewApp. -/
def derivedDeploymentModel (a : Option AppData) : String :=
  ((a.bind AppData.deploymentModel).getD (""))

/-- Decidable equality for collaborator response values. -/
instance exceptDecEq {ε : Type} {α : Type} [DecidableEq ε] [DecidableEq α] :
    DecidableEq (Except ε α) := fun x y =>
  match x, y with
  | Except.ok a, Except.ok b =>
      if h : a = b then Decidable.isTrue (by rw [h]) else Decidable.isFalse (by intro hc; cases hc; exact h rfl)
  | Except.error a, Except.error b =>
      if h : a = b then Decidable.isTrue (by rw [h]) else Decidable.isFalse (by intro hc; cases hc; exact h rfl)
  | Except.ok _, Except.error _ => Decidable.isFalse (by intro hc; cases hc)
  | Except.error _, Except.ok _ => Decidable.isFalse (by intro hc; cases hc)

/-- Modelled from the spec: the terminal.UI collaborator (not under src/).
autoConfirm is the non-interactive mode in which all yes/no decisions default to
proceed without prompting; the remaining fields are the replies the environment
supplies for each distinct prompt site of the push flow when that prompt is
actually shown. -/
structure UI where
  autoConfirm : Bool
  confirmCreateApp : Except GoError Bool
  askName : Except GoError String
  askLocation : Except GoError String
  askDeploymentModel : Except GoError String
  confirmChanges : Except GoError Bool
  confirmDiscard : Except GoError Bool
deriving DecidableEq, Repr

/-- The realm client collaborator, embedded as the response the environment
returns at each call site of the push and diff handlers. deploymentResps lists
the successive replies of the Deployment status re-fetches, in order. -/
structure RealmClient where
  diffResp : Except GoError (List String)
  hostingAssetsResp : Except GoError Unit
  createAppResp : Except GoError App
  createDraftResp : Except GoError AppDraft
  createDraftRetryResp : Except GoError AppDraft
  draftResp : Except GoError AppDraft
  diffDraftResp : Except GoError Unit
  discardConflictResp : Option GoError
  discardPollResp : Option GoError
  importResp : Option GoError
  deployDraftResp : Except GoError Deployment
  deploymentResps : List (Except GoError Deployment)
  importDependenciesResp : Option GoError
  uploadHostingAssetsResp : Option GoError
  cacheInvalidateResp : Option GoError
deriving DecidableEq, Repr

/-- Hosting diffs as used by the handlers (local.HostingDiffs is not under src/;
modelled from the spec: a structured diff exposing its total size, a capacity
hint, and a rendered line list). The zero value has size 0 and no lines. -/
structure HostingDiffs where
  size : Nat
  cap : Nat
  strings : List String
deriving DecidableEq, Repr

def HostingDiffs.empty : HostingDiffs := ⟨0, 0, []⟩

/-- Local (non-remote) collaborator results used by the push handler:
local.FindAppHosting, hosting.Diffs, local.AsApp(...).WriteConfig,
local.FindAppDependencies and dependencies.PrepareUpload. -/
structure LocalEnv where
  findAppHostingResp : Except GoError Unit
  hostingDiffsResp : Except GoError HostingDiffs
  writeConfigResp : Option GoError
  findAppDependenciesResp : Except GoError Unit
  prepareUploadResp : Except GoError String
deriving DecidableEq, Repr

/-- The push command flags that drive the handler. -/
structure PushInputs where
  dryRun : Bool
  includeDependencies : Bool
  includeHosting : Bool
  resetCDNCache : Bool
deriving DecidableEq, Repr

/-- The resolved push target: group and app identifiers; an empty appID means
the app does not exist yet. -/
structure To where
  groupID : String
  appID : String
deriving DecidableEq, Repr

/-- The app diff command flags. -/
structure DiffInputs where
  includeDependencies : Bool
  includeHosting : Bool
deriving DecidableEq, Repr

/-- Overall outcome of a handler run: a nil error, an error value, or
divergence (the poll loop never observes a terminal status because the
environment keeps answering in-flight statuses forever). -/
inductive RunResult
  | ok
  | err (e : GoError)
  | diverge
deriving DecidableEq, Repr

/-- The Go triple returned by createNewApp: (realm.App, bool, error). -/
structure CreateAppOut where
  app : App
  proceed : Bool
  err : Option GoError
deriving DecidableEq, Repr

/-- The Go triple returned by createNewDraft: (realm.AppDraft, bool, error). -/
structure CreateDraftOut where
  draft : AppDraft
  proceed : Bool
  err : Option GoError
deriving DecidableEq, Repr

/-- The fixed advisory line appended when dependency diffing is requested. -/
def dependencyAdvisory : String := "+ New function dependencies"

/-- Tail of createNewApp: the CreateApp remote call followed by WriteConfig. -/
def createAppCall (env : LocalEnv) (client : RealmClient) (groupID : String)
    (name : String) (location : String) (deploymentModel : String) :
    CreateAppOut × List Event :=
  match client.createAppResp with
  | Except.error e =>
      (⟨App.empty, false, some e⟩, [Event.callCreateApp groupID name location deploymentModel])
  | Except.ok app =>
      match env.writeConfigResp with
      | some e =>
          (⟨App.empty, false, some e⟩, [Event.callCreateApp groupID name location deploymentModel])
      | none => (⟨app, true, none⟩, [Event.callCreateApp groupID name location deploymentModel])

/-- Deployment-model step of createNewApp: prompted unless auto-confirm. -/
def createNewAppDm (ui : UI) (env : LocalEnv) (client : RealmClient) (groupID : String)
    (appData : Option AppData) (name : String) (location : String) :
    CreateAppOut × List Event :=
  if ui.autoConfirm then
    createAppCall env client groupID name location (derivedDeploymentModel appData)
  else
    match ui.askDeploymentModel with
    | Except.error e => (⟨App.empty, false, some e⟩, [Event.promptInput ("App Deployment Model")])
    | Except.ok dm =>
        let r := createAppCall env client groupID name location dm
        (r.fst, Event.promptInput ("App Deployment Model") :: r.snd)

/-- Location step of createNewApp: prompted unless auto-confirm. -/
def createNewAppLoc (ui : UI) (env : LocalEnv) (client : RealmClient) (groupID : String)
    (appData : Option AppData) (name : String) : CreateAppOut × List Event :=
  if ui.autoConfirm then
    createNewAppDm ui env client groupID appData name (derivedLocation appData)
  else
    match ui.askLocation with
    | Except.error e => (⟨App.empty, false, some e⟩, [Event.promptInput ("App Location")])
    | Except.ok l =>
        let r := createNewAppDm ui env client groupID appData name l
        (r.fst, Event.promptInput ("App Location") :: r.snd)

/-- Name step of createNewApp: the name is prompted when the derived name is
empty or auto-confirm is off, mirroring the source condition. -/
def createNewAppName (ui : UI) (env : LocalEnv) (client : RealmClient) (groupID : String)
    (appData : Option AppData) : CreateAppOut × List Event :=
  if derivedName appData = "" ∨ ui.autoConfirm = false then
    match ui.askName with
    | Except.error e => (⟨App.empty, false, some e⟩, [Event.promptInput ("App Name")])
    | Except.ok n =>
        let r := createNewAppLoc ui env client groupID appData n
        (r.fst, Event.promptInput ("App Name") :: r.snd)
  else createNewAppLoc ui env client groupID appData (derivedName appData)

/-- createNewApp of the push command: initial yes/no confirmation (auto-confirm
proceeds without prompting), capability-derived defaults, prompt steps, the
CreateApp call and the local config write. -/
def createNewApp (ui : UI) (env : LocalEnv) (client : RealmClient) (groupID : String)
    (appData : Option AppData) : CreateAppOut × List Event :=
  if ui.autoConfirm then createNewAppName ui env client groupID appData
  else
    match ui.confirmCreateApp with
    | Except.error e =>
        (⟨App.empty, false, some e⟩, [Event.promptConfirm ("Do you wish to create a new app?")])
    | Except.ok false =>
        (⟨App.empty, false, none⟩, [Event.promptConfirm ("Do you wish to create a new app?")])
    | Except.ok true =>
        let r := createNewAppName ui env client groupID appData
        (r.fst, Event.promptConfirm ("Do you wish to create a new app?") :: r.snd)

/-- Discard-and-retry tail of createNewDraft: discard the conflicting draft and
re-attempt CreateDraft exactly once; the retry result is returned as-is with
proceed set to true, mirroring the final return of the source. -/
def createNewDraftDiscard (client : RealmClient) (existingID : String) :
    CreateDraftOut × List Event :=
  match client.discardConflictResp with
  | some e => (⟨AppDraft.empty, false, some e⟩, [Event.callDiscardDraft existingID])
  | none =>
      match client.createDraftRetryResp with
      | Except.ok d =>
          (⟨d, true, none⟩, [Event.callDiscardDraft existingID, Event.callCreateDraft])
      | Except.error e =>
          (⟨AppDraft.empty, true, some e⟩, [Event.callDiscardDraft existingID, Event.callCreateDraft])

/-- createNewDraft of the push command: attempt CreateDraft; on the distinguishable
draft-exists conflict, fetch the existing draft, (unless auto-confirm) present its
diff and ask whether to discard, then discard and retry once. The rendered draft
diff logs are presentation detail and are abstracted into the DiffDraft call
event. -/
def createNewDraft (ui : UI) (client : RealmClient) : CreateDraftOut × List Event :=
  match client.createDraftResp with
  | Except.ok d => (⟨d, true, none⟩, [Event.callCreateDraft])
  | Except.error draftErr =>
      if draftErr.isDraftConflict = false then
        (⟨AppDraft.empty, false, some draftErr⟩, [Event.callCreateDraft])
      else
        match client.draftResp with
        | Except.error e =>
            (⟨AppDraft.empty, false, some e⟩, [Event.callCreateDraft, Event.callDraftFetch])
        | Except.ok existing =>
            if ui.autoConfirm then
              let r := createNewDraftDiscard client existing.id
              (r.fst, Event.callCreateDraft :: Event.callDraftFetch :: r.snd)
            else
              match client.diffDraftResp with
              | Except.error e =>
                  (⟨AppDraft.empty, false, some e⟩,
                    [Event.callCreateDraft, Event.callDraftFetch, Event.callDiffDraft existing.id])
              | Except.ok _ =>
                  match ui.confirmDiscard with
                  | Except.error e =>
                      (⟨AppDraft.empty, false, some e⟩,
                        [Event.callCreateDraft, Event.callDraftFetch,
                          Event.callDiffDraft existing.id,
                          Event.promptConfirm ("Would you like to discard this draft?")])
                  | Except.ok false =>
                      (⟨AppDraft.empty, false, none⟩,
                        [Event.callCreateDraft, Event.callDraftFetch,
                          Event.callDiffDraft existing.id,
                          Event.promptConfirm ("Would you like to discard this draft?")])
                  | Except.ok true =>
                      let r := createNewDraftDiscard client existing.id
                      (r.fst,
                        [Event.callCreateDraft, Event.callDraftFetch,
                          Event.callDiffDraft existing.id,
                          Event.promptConfirm ("Would you like to discard this draft?")] ++ r.snd)

/-- The in-flight statuses of the poll loop condition. -/
def DeploymentStatus.inflight : DeploymentStatus → Bool
  | .created => true
  | .pending => true
  | .successful => false
  | .failed => false

/-- The waitForDeployment closure of deployDraftAndWait: while the last observed
status is in-flight, re-fetch the deployment; a re-fetch error triggers one
best-effort DiscardDraft (a failure of which is only a warning) and is returned;
leaving the in-flight set ends the loop with a nil error. The fixed sleep is
time-only and not modelled. When the environment supplies in-flight answers
forever the Go loop never returns, modelled by the diverge outcome. -/
def waitForDeployment (resps : List (Except GoError Deployment)) (discardResp : Option GoError)
    (draftID : String) (dep : Deployment) : RunResult × List Event :=
  if dep.status.inflight then
    match resps with
    | [] => (RunResult.diverge, [])
    | r :: rest =>
        match r with
        | Except.ok dep2 =>
            let x := waitForDeployment rest discardResp draftID dep2
            (x.fst, Event.callDeployment dep.id :: x.snd)
        | Except.error e =>
            match discardResp with
            | none => (RunResult.err e, [Event.callDeployment dep.id, Event.callDiscardDraft draftID])
            | some _ =>
                (RunResult.err e,
                  [Event.callDeployment dep.id, Event.callDiscardDraft draftID,
                    Event.warningLog ("Failed to discard the draft created for your deployment")])
  else (RunResult.ok, [])

/-- deployDraftAndWait of the push command: submit the draft, poll to a terminal
status, and print the completion log on a nil result. -/
def deployDraftAndWait (client : RealmClient) (draftID : String) : RunResult × List Event :=
  match client.deployDraftResp with
  | Except.error e => (RunResult.err e, [Event.callDeployDraft draftID])
  | Except.ok dep =>
      let x := waitForDeployment client.deploymentResps client.discardPollResp draftID dep
      match x.fst with
      | RunResult.ok =>
          (RunResult.ok,
            Event.callDeployDraft draftID :: x.snd ++ [Event.textLog ("Deployment complete")])
      | r => (r, Event.callDeployDraft draftID :: x.snd)

/-- The combined diff list the push handler presents: app-structure diff lines,
then the fixed dependency advisory when the flag is set, then the hosting diff
lines. -/
def combinedDiffs (appDiffs : List String) (includeDependencies : Bool)
    (hostingDiffs : HostingDiffs) : List String :=
  appDiffs ++ (if includeDependencies then [dependencyAdvisory] else []) ++ hostingDiffs.strings

/-- Dependency-upload stage of the push handler (gated on the flag): find local
dependencies, transpile them, and import the archive. -/
def pushDependencies (env : LocalEnv) (client : RealmClient) (inputs : PushInputs) :
    RunResult × List Event :=
  if inputs.includeDependencies then
    match env.findAppDependenciesResp with
    | Except.error e => (RunResult.err e, [])
    | Except.ok _ =>
        match env.prepareUploadResp with
        | Except.error e => (RunResult.err e, [])
        | Except.ok _ =>
            match client.importDependenciesResp with
            | some e =>
                (RunResult.err e,
                  [Event.textLog ("Transpiled dependency sources"), Event.callImportDependencies])
            | none =>
                (RunResult.ok,
                  [Event.textLog ("Transpiled dependency sources"), Event.callImportDependencies,
                    Event.textLog ("Uploaded dependencies archive")])
  else (RunResult.ok, [])

/-- Hosting-upload stage of the push handler (gated on the flag): upload the
hosting assets (per-asset warnings are internal to the collaborator), then
optionally invalidate the CDN cache. -/
def pushHosting (client : RealmClient) (inputs : PushInputs) : RunResult × List Event :=
  if inputs.includeHosting then
    match client.uploadHostingAssetsResp with
    | some e => (RunResult.err e, [Event.callUploadHostingAssets])
    | none =>
        if inputs.resetCDNCache then
          match client.cacheInvalidateResp with
          | some e =>
              (RunResult.err e,
                [Event.callUploadHostingAssets, Event.textLog ("Import hosting assets"),
                  Event.callCacheInvalidate])
          | none =>
              (RunResult.ok,
                [Event.callUploadHostingAssets, Event.textLog ("Import hosting assets"),
                  Event.callCacheInvalidate, Event.textLog ("Reset CDN cache")])
        else
          (RunResult.ok,
            [Event.callUploadHostingAssets, Event.textLog ("Import hosting assets")])
  else (RunResult.ok, [])

/-- Draft-and-deploy tail of the push handler: create a draft (error checked
before the proceed flag, as in the source), import the local app data, deploy
the draft and wait, then run the optional dependency and hosting stages. -/
def pushDeployPhase (ui : UI) (env : LocalEnv) (client : RealmClient) (inputs : PushInputs) :
    RunResult × List Event :=
  let d := createNewDraft ui client
  let evts1 := Event.textLog ("Creating draft") :: d.snd
  match d.fst.err with
  | some e => (RunResult.err e, evts1)
  | none =>
      if d.fst.proceed = false then (RunResult.ok, evts1)
      else
        let evts2 := evts1 ++ [Event.textLog ("Pushing changes"), Event.callImport]
        match client.importResp with
        | some e => (RunResult.err e, evts2)
        | none =>
            let evts3 := evts2 ++ [Event.textLog ("Deploying draft")]
            let w := deployDraftAndWait client d.fst.draft.id
            match w.fst with
            | RunResult.err e => (RunResult.err e, evts3 ++ w.snd)
            | RunResult.diverge => (RunResult.diverge, evts3 ++ w.snd)
            | RunResult.ok =>
                let dep := pushDependencies env client inputs
                match dep.fst with
                | RunResult.ok =>
                    let h := pushHosting client inputs
                    match h.fst with
                    | RunResult.ok =>
                        (RunResult.ok,
                          evts3 ++ w.snd ++ dep.snd ++ h.snd ++
                            [Event.textLog ("Successfully pushed app up")])
                    | r => (r, evts3 ++ w.snd ++ dep.snd ++ h.snd)
                | r => (r, evts3 ++ w.snd ++ dep.snd)

/-- Middle of the push handler, after the target app is known to exist: compute
the app diff, find local hosting, optionally fetch remote assets and compute
hosting diffs, short-circuit on an empty combined result, present the combined
diff unless auto-confirmed or the app was just created, stop on dry-run, ask for
confirmation, then run the draft-and-deploy tail. -/
def pushAfterApp (ui : UI) (env : LocalEnv) (client : RealmClient) (inputs : PushInputs)
    (isNewApp : Bool) : RunResult × List Event :=
  let e0 := [Event.textLog ("Determining changes"), Event.callDiff]
  match client.diffResp with
  | Except.error e => (RunResult.err e, e0)
  | Except.ok appDiffs =>
      match env.findAppHostingResp with
      | Except.error e => (RunResult.err e, e0)
      | Except.ok _ =>
          let hosting : Except (GoError × List Event) (HostingDiffs × List Event) :=
            if inputs.includeHosting then
              match client.hostingAssetsResp with
              | Except.error e => Except.error (e, [Event.callHostingAssets])
              | Except.ok _ =>
                  match env.hostingDiffsResp with
                  | Except.error e => Except.error (e, [Event.callHostingAssets])
                  | Except.ok hd => Except.ok (hd, [Event.callHostingAssets])
            else Except.ok (HostingDiffs.empty, [])
          match hosting with
          | Except.error p => (RunResult.err p.fst, e0 ++ p.snd)
          | Except.ok hp =>
              let evts := e0 ++ hp.snd
              if appDiffs = [] ∧ inputs.includeDependencies = false ∧ hp.fst.size = 0 then
                (RunResult.ok,
                  evts ++ [Event.textLog ("Deployed app is identical to proposed version, nothing to do")])
              else
                let evts2 :=
                  if ui.autoConfirm = false ∧ isNewApp = false then
                    evts ++ [Event.diffLog (combinedDiffs appDiffs inputs.includeDependencies hp.fst)]
                  else evts
                if inputs.dryRun then
                  (RunResult.ok,
                    evts2 ++ [Event.textLog ("To push these changes, you must omit the dry-run flag to proceed"),
                      Event.followupLog ("realm-cli push")])
                else
                  if ui.autoConfirm then
                    let t := pushDeployPhase ui env client inputs
                    (t.fst, evts2 ++ t.snd)
                  else
                    match ui.confirmChanges with
                    | Except.error e =>
                        (RunResult.err e,
                          evts2 ++ [Event.promptConfirm ("Please confirm the changes shown above")])
                    | Except.ok false =>
                        (RunResult.ok,
                          evts2 ++ [Event.promptConfirm ("Please confirm the changes shown above")])
                    | Except.ok true =>
                        let t := pushDeployPhase ui env client inputs
                        (t.fst,
                          evts2 ++ Event.promptConfirm ("Please confirm the changes shown above") :: t.snd)

/-- The push command handler. local.LoadApp, inputs.resolveTo and the group-id
resolution happen before any behavior the core spec describes and are modelled
as the already-resolved to and appData arguments. An empty appID takes the
new-app branch: on dry-run it stops with a suggestion, otherwise it runs
createNewApp and proceeds with the new app marked as just created. -/
def pushHandler (ui : UI) (env : LocalEnv) (client : RealmClient) (inputs : PushInputs)
    (target : To) (appData : Option AppData) : RunResult × List Event :=
  if target.appID = "" then
    if inputs.dryRun then
      (RunResult.ok,
        [Event.textLog ("This is a new app. To create a new app, you must omit the dry-run flag to proceed"),
          Event.followupLog ("realm-cli push")])
    else
      let c := createNewApp ui env client target.groupID appData
      match c.fst.err with
      | some e => (RunResult.err e, c.snd)
      | none =>
          if c.fst.proceed then
            let t := pushAfterApp ui env client inputs true
            (t.fst, c.snd ++ t.snd)
          else (RunResult.ok, c.snd)
  else
    let t := pushAfterApp ui env client inputs false
    (t.fst, t.snd)

/-- Final print of the app diff handler: the no-changes log on an empty list,
the rendered diff list otherwise. -/
def diffFinish (diffs : List String) (evts : List Event) : RunResult × List Event :=
  if diffs = [] then
    (RunResult.ok, evts ++ [Event.textLog ("Deployed app is identical to proposed version")])
  else (RunResult.ok, evts ++ [Event.diffLog diffs])

/-- The app diff command handler (src/internal/commands/app/diff.go):
local.LoadApp and cli.ResolveApp are modelled as already resolved. Compute the
app diff, append the fixed dependency advisory when that flag is set, append the
hosting diff lines when that flag is set, then print. -/
def diffHandler (env : LocalEnv) (client : RealmClient) (inputs : DiffInputs) :
    RunResult × List Event :=
  match client.diffResp with
  | Except.error e => (RunResult.err e, [Event.callDiff])
  | Except.ok appDiffs =>
      let diffs1 := if inputs.includeDependencies then appDiffs ++ [dependencyAdvisory] else appDiffs
      if inputs.includeHosting then
        match env.findAppHostingResp with
        | Except.error e => (RunResult.err e, [Event.callDiff])
        | Except.ok _ =>
            match client.hostingAssetsResp with
            | Except.error e => (RunResult.err e, [Event.callDiff, Event.callHostingAssets])
            | Except.ok _ =>
                match env.hostingDiffsResp with
                | Except.error e => (RunResult.err e, [Event.callDiff, Event.callHostingAssets])
                | Except.ok hd =>
                    diffFinish (diffs1 ++ hd.strings) [Event.callDiff, Event.callHostingAssets]
      else diffFinish diffs1 [Event.callDiff]

/-- Number of events of a trace satisfying a predicate. -/
def countEvents (p : Event → Bool) (evts : List Event) : Nat := (evts.filter p).length

/-- Is this event a DiscardDraft call. -/
def Event.isDiscard : Event → Bool
  | .callDiscardDraft _ => true
  | _ => false

/-- Is this event a Deployment status re-fetch call. -/
def Event.isDeploymentFetch : Event → Bool
  | .callDeployment _ => true
  | _ => false

/-- Is this event a CreateDraft call. -/
def Event.isCreateDraftCall : Event → Bool
  | .callCreateDraft => true
  | _ => false

/-- Is this event a Draft fetch call. -/
def Event.isDraftFetchCall : Event → Bool
  | .callDraftFetch => true
  | _ => false

/-- Is this event a printed warning. -/
def Event.isWarning : Event → Bool
  | .warningLog _ => true
  | _ => false

/-- Is this event an interactive prompt. -/
def Event.isPrompt : Event → Bool
  | .promptConfirm _ => true
  | .promptInput _ => true
  | _ => false

/-- Is this event one of the mutating remote calls named by the idempotence
property: CreateDraft, Import, DeployDraft, DiscardDraft, ImportDependencies,
UploadHostingAssets or the cache invalidation. -/
def Event.isMutatingPush : Event → Bool
  | .callCreateDraft => true
  | .callImport => true
  | .callDeployDraft _ => true
  | .callDiscardDraft _ => true
  | .callImportDependencies => true
  | .callUploadHostingAssets => true
  | .callCacheInvalidate => true
  | _ => false

/-- Is this event any mutating remote call, CreateApp included. -/
def Event.isMutatingAny : Event → Bool
  | .callCreateApp _ _ _ _ => true
  | e => e.isMutatingPush

/-- Is this event a CreateApp call. -/
def Event.isCreateAppCall : Event → Bool
  | .callCreateApp _ _ _ _ => true
  | _ => false

/-- Is this event an interactive prompt or a CreateApp call (the only event
kinds the app-creation flow can add beyond non-prompt logs). -/
def Event.isPromptOrCreateApp : Event → Bool
  | .promptConfirm _ => true
  | .promptInput _ => true
  | .callCreateApp _ _ _ _ => true
  | _ => false

/-- The sequence of statuses the poll loop can observe when every re-fetch
succeeds: the submitted deployment status followed by the statuses of the
successive re-fetch answers. -/
def pollStatuses (dep : Deployment) (ds : List Deployment) : List DeploymentStatus :=
  dep.status :: ds.map Deployment.status

/-- Length of the in-flight prefix of the observable status sequence: the number
of status checks that keep the loop running. -/
def pollExitLen (dep : Deployment) (ds : List Deployment) : Nat :=
  ((pollStatuses dep ds).takeWhile DeploymentStatus.inflight).length

/-- A fully-successful environment used as the base of the concrete runs below. -/
def baseClient : RealmClient :=
  { diffResp := Except.ok []
    hostingAssetsResp := Except.ok ()
    createAppResp := Except.ok ⟨"app1"⟩
    createDraftResp := Except.ok ⟨"draft1"⟩
    createDraftRetryResp := Except.ok ⟨"draft2"⟩
    draftResp := Except.ok ⟨"draft0"⟩
    diffDraftResp := Except.ok ()
    discardConflictResp := none
    discardPollResp := none
    importResp := none
    deployDraftResp := Except.ok ⟨"dep1", DeploymentStatus.created⟩
    deploymentResps := []
    importDependenciesResp := none
    uploadHostingAssetsResp := none
    cacheInvalidateResp := none }

/-- A non-interactive UI with all replies available. -/
def baseUI : UI :=
  { autoConfirm := true
    confirmCreateApp := Except.ok true
    askName := Except.ok ("asked-name")
    askLocation := Except.ok ("asked-location")
    askDeploymentModel := Except.ok ("asked-model")
    confirmChanges := Except.ok true
    confirmDiscard := Except.ok true }

/-- A fully-successful local collaborator environment. -/
def baseEnv : LocalEnv :=
  { findAppHostingResp := Except.ok ()
    hostingDiffsResp := Except.ok HostingDiffs.empty
    writeConfigResp := none
    findAppDependenciesResp := Except.ok ()
    prepareUploadResp := Except.ok ("upload-path") }

/-- Concrete run for the compensating-discard property: the only status re-fetch
fails and the discard of the draft fails as well. -/
def c1Client : RealmClient :=
  { baseClient with
    deployDraftResp := Except.ok ⟨"dep1", DeploymentStatus.created⟩
    deploymentResps := [Except.error (GoError.simple ("transport failure"))]
    discardPollResp := some (GoError.simple ("discard failure")) }

/-- Status sequence reaching the Failed terminal status after one re-fetch. -/
def c3Seq : List Deployment := [⟨"dep1", DeploymentStatus.failed⟩]

/-- Concrete run whose deployment ends in the Failed terminal status. -/
def c3Client : RealmClient :=
  { baseClient with
    deployDraftResp := Except.ok ⟨"dep1", DeploymentStatus.created⟩
    deploymentResps := c3Seq.map Except.ok }

/-- Concrete run whose deployment ends in the Successful terminal status, for
comparison with the Failed run. -/
def c3ClientSucc : RealmClient :=
  { baseClient with
    deployDraftResp := Except.ok ⟨"dep1", DeploymentStatus.created⟩
    deploymentResps := [Except.ok ⟨"dep1", DeploymentStatus.successful⟩] }

/-- Status sequence Pending, Pending, Successful observed by the re-fetches. -/
def c4Seq : List Deployment :=
  [⟨"dep1", DeploymentStatus.pending⟩, ⟨"dep1", DeploymentStatus.pending⟩,
    ⟨"dep1", DeploymentStatus.successful⟩]

/-- Concrete run for the poll-termination property: DeployDraft answers Created,
then the re-fetches answer Pending, Pending, Successful. -/
def c4Client : RealmClient :=
  { baseClient with
    deployDraftResp := Except.ok ⟨"dep1", DeploymentStatus.created⟩
    deploymentResps := c4Seq.map Except.ok }

/-- Default flags: no dry run, no dependency, hosting or cache options. -/
def basePushInputs : PushInputs :=
  { dryRun := false, includeDependencies := false, includeHosting := false,
    resetCDNCache := false }

/-- A resolved target whose app already exists. -/
def baseTarget : To := { groupID := ("group1"), appID := ("app1") }

/-- A target whose app does not exist yet. -/
def newAppTarget : To := { groupID := ("group1"), appID := ("") }

/-- Local app data implementing all three capability interfaces. -/
def baseAppData : AppData :=
  { name := some ("name1"), location := some ("location1"),
    deploymentModel := some ("model1") }

/-- Local app data whose name capability yields the empty string. -/
def emptyNameAppData : AppData :=
  { name := some (""), location := some ("location1"), deploymentModel := some ("model1") }

/-- Dry-run flags. -/
def dryRunInputs : PushInputs := { basePushInputs with dryRun := true }

/-- An interactive UI that declines the push confirmation. -/
def c8UI : UI := { baseUI with autoConfirm := false, confirmChanges := Except.ok false }

/-- A client whose app diff is non-empty. -/
def c8Client : RealmClient := { baseClient with diffResp := Except.ok [("- removed thing")] }

/-- Diff-command flags with the dependency flag set and hosting off. -/
def c9DiffInputs : DiffInputs := { includeDependencies := true, includeHosting := false }

/-- A client with a non-empty app diff for the diff command run. -/
def c9Client : RealmClient := { baseClient with diffResp := Except.ok [("* changed app")] }

/-- A client whose Import call fails after a successful draft creation. -/
def c10Client : RealmClient :=
  { baseClient with
    diffResp := Except.ok [("* changed app")]
    importResp := some (GoError.simple ("import failed")) }

/-- A client whose initial DeployDraft submission fails after Import succeeded. -/
def c10ClientB : RealmClient :=
  { baseClient with
    diffResp := Except.ok [("* changed app")]
    deployDraftResp := Except.error (GoError.simple ("deploy failed")) }

/-- The draft-conflict error value used by the concrete conflict-recovery run. -/
def c2Conflict : GoError := GoError.server errCodeDraftAlreadyExists

/-- Concrete run for conflict recovery: the first CreateDraft answers the
conflict, the existing draft is fetched, its discard succeeds and the retried
CreateDraft succeeds. -/
def c2Client : RealmClient :=
  { baseClient with createDraftResp := Except.error c2Conflict }

theorem countEvents_nil (p : Event → Bool) : countEvents p [] = 0 := rfl

theorem countEvents_cons (p : Event → Bool) (e : Event) (l : List Event) :
    countEvents p (e :: l) = (if p e then 1 else 0) + countEvents p l := by
  by_cases h : p e <;> simp [countEvents, List.filter_cons, h, Nat.add_comm]

theorem countEvents_append (p : Event → Bool) (a b : List Event) :
    countEvents p (a ++ b) = countEvents p a + countEvents p b := by
  simp [countEvents, List.filter_append]

theorem countEvents_eq_zero {p : Event → Bool} {l : List Event}
    (h : ∀ e ∈ l, p e = false) : countEvents p l = 0 := by
  have : l.filter p = [] := List.filter_eq_nil_iff.mpr (by intro a ha; simp [h a ha])
  simp [countEvents, this]

theorem createAppCall_snd (env : LocalEnv) (client : RealmClient) (g n l d : String) :
    (createAppCall env client g n l d).snd = [Event.callCreateApp g n l d] := by
  unfold createAppCall
  cases client.createAppResp with
  | error e => rfl
  | ok app => cases env.writeConfigResp with
    | none => rfl
    | some e => rfl

theorem createNewDraft_first_ok (ui : UI) (client : RealmClient) (d : AppDraft)
    (h : client.createDraftResp = Except.ok d) :
    createNewDraft ui client = (⟨d, true, none⟩, [Event.callCreateDraft]) := by
  unfold createNewDraft
  rw [h]

theorem waitFor_err_char (resps : List (Except GoError Deployment)) :
    ∀ (dr : Option GoError) (draftID : String) (dep : Deployment) (e : GoError),
    (waitForDeployment resps dr draftID dep).fst = RunResult.err e →
    countEvents Event.isDiscard (waitForDeployment resps dr draftID dep).snd = 1 ∧
    Except.error e ∈ resps ∧
    (∀ dr', (waitForDeployment resps dr' draftID dep).fst = RunResult.err e) ∧
    countEvents Event.isWarning (waitForDeployment resps dr draftID dep).snd =
      (if dr.isSome then 1 else 0) := by
  induction resps with
  | nil =>
      intro dr draftID dep e h
      by_cases hs : dep.status.inflight = true <;> simp [waitForDeployment, hs] at h
  | cons r rest ih =>
      intro dr draftID dep e h
      by_cases hs : dep.status.inflight = true
      · cases r with
        | ok dep2 =>
            have h' : (waitForDeployment rest dr draftID dep2).fst = RunResult.err e := by
              simpa [waitForDeployment, hs] using h
            obtain ⟨h1, h2, h3, h4⟩ := ih dr draftID dep2 e h'
            refine ⟨?_, ?_, ?_, ?_⟩
            · simpa [waitForDeployment, hs, countEvents_cons, Event.isDiscard] using h1
            · exact List.mem_cons_of_mem _ h2
            · intro dr'
              simpa [waitForDeployment, hs] using h3 dr'
            · simpa [waitForDeployment, hs, countEvents_cons, Event.isWarning] using h4
        | error e0 =>
            have he : e0 = e := by
              cases dr <;> simpa [waitForDeployment, hs] using h
            subst he
            cases dr with
            | none =>
                refine ⟨?_, List.mem_cons_self _ _, ?_, ?_⟩
                · simp [waitForDeployment, hs, countEvents, Event.isDiscard]
                · intro dr'
                  cases dr' <;> simp [waitForDeployment, hs]
                · simp [waitForDeployment, hs, countEvents, Event.isWarning]
            | some w =>
                refine ⟨?_, List.mem_cons_self _ _, ?_, ?_⟩
                · simp [waitForDeployment, hs, countEvents, Event.isDiscard]
                · intro dr'
                  cases dr' <;> simp [waitForDeployment, hs]
                · simp [waitForDeployment, hs, countEvents, Event.isWarning]
      · simp [waitForDeployment, hs] at h

theorem waitFor_allOk_char (ds : List Deployment) :
    ∀ (dr : Option GoError) (draftID : String) (dep : Deployment),
    (waitForDeployment (ds.map Except.ok) dr draftID dep).fst =
      (if pollExitLen dep ds ≤ ds.length then RunResult.ok else RunResult.diverge) ∧
    countEvents Event.isDeploymentFetch
        (waitForDeployment (ds.map Except.ok) dr draftID dep).snd =
      min (pollExitLen dep ds) ds.length ∧
    countEvents Event.isDiscard (waitForDeployment (ds.map Except.ok) dr draftID dep).snd = 0 ∧
    countEvents Event.isWarning (waitForDeployment (ds.map Except.ok) dr draftID dep).snd = 0 := by
  induction ds with
  | nil =>
      intro dr draftID dep
      by_cases hs : dep.status.inflight = true <;>
        simp [waitForDeployment, hs, pollExitLen, pollStatuses, List.takeWhile, countEvents]
  | cons d rest ih =>
      intro dr draftID dep
      by_cases hs : dep.status.inflight = true
      · obtain ⟨h1, h2, h3, h4⟩ := ih dr draftID d
        have hlen : pollExitLen dep (d :: rest) = pollExitLen d rest + 1 := by
          simp [pollExitLen, pollStatuses, List.takeWhile, hs]
        refine ⟨?_, ?_, ?_, ?_⟩
        · rw [hlen]
          have : pollExitLen d rest + 1 ≤ (d :: rest).length ↔
              pollExitLen d rest ≤ rest.length := by
            simp [List.length_cons]
          rw [if_congr this rfl rfl]
          simpa [waitForDeployment, hs] using h1
        · rw [hlen]
          have hmin : min (pollExitLen d rest + 1) (d :: rest).length =
              min (pollExitLen d rest) rest.length + 1 := by
            simp [List.length_cons]
            omega
          rw [hmin]
          simpa [waitForDeployment, hs, countEvents_cons, Event.isDeploymentFetch,
            Nat.add_comm] using h2
        · simpa [waitForDeployment, hs, countEvents_cons, Event.isDiscard] using h3
        · simpa [waitForDeployment, hs, countEvents_cons, Event.isWarning] using h4
      · simp [waitForDeployment, hs, pollExitLen, pollStatuses, List.takeWhile, countEvents]

theorem deployDraftAndWait_reduce (client : RealmClient) (draftID : String) (dep : Deployment)
    (hsub : client.deployDraftResp = Except.ok dep) :
    deployDraftAndWait client draftID =
      (match (waitForDeployment client.deploymentResps client.discardPollResp draftID dep).fst with
       | RunResult.ok =>
           (RunResult.ok,
             Event.callDeployDraft draftID ::
               (waitForDeployment client.deploymentResps client.discardPollResp draftID dep).snd ++
                 [Event.textLog ("Deployment complete")])
       | r =>
           (r, Event.callDeployDraft draftID ::
             (waitForDeployment client.deploymentResps client.discardPollResp draftID dep).snd)) := by
  unfold deployDraftAndWait
  rw [hsub]

theorem deployDraftAndWait_fst (client : RealmClient) (draftID : String) (dep : Deployment)
    (hsub : client.deployDraftResp = Except.ok dep) :
    (deployDraftAndWait client draftID).fst =
      (waitForDeployment client.deploymentResps client.discardPollResp draftID dep).fst := by
  rw [deployDraftAndWait_reduce client draftID dep hsub]
  generalize (waitForDeployment client.deploymentResps client.discardPollResp draftID dep).fst = x
  cases x <;> rfl

theorem deployDraftAndWait_snd (client : RealmClient) (draftID : String) (dep : Deployment)
    (hsub : client.deployDraftResp = Except.ok dep) :
    (deployDraftAndWait client draftID).snd =
      Event.callDeployDraft draftID ::
        (waitForDeployment client.deploymentResps client.discardPollResp draftID dep).snd ++
        (if (waitForDeployment client.deploymentResps client.discardPollResp draftID dep).fst =
            RunResult.ok
         then [Event.textLog ("Deployment complete")] else []) := by
  rw [deployDraftAndWait_reduce client draftID dep hsub]
  generalize hx : (waitForDeployment client.deploymentResps client.discardPollResp
    draftID dep).fst = x
  cases x <;> simp

/-- C1: when the deployment submission succeeded and a status re-fetch makes
deployDraftAndWait return an error, exactly one DiscardDraft call appears in
the run, the returned error is one of the re-fetch answers, the returned error
does not depend on the outcome of the discard, and a discard failure surfaces
as exactly one warning (no warning when the discard succeeds). -/
theorem claim1_compensating_discard (client : RealmClient) (draftID : String)
    (dep : Deployment) (e : GoError)
    (hsub : client.deployDraftResp = Except.ok dep)
    (herr : (deployDraftAndWait client draftID).fst = RunResult.err e) :
    countEvents Event.isDiscard (deployDraftAndWait client draftID).snd = 1 ∧
    Except.error e ∈ client.deploymentResps ∧
    (∀ dr2 : Option GoError,
      (deployDraftAndWait { client with discardPollResp := dr2 } draftID).fst =
        RunResult.err e) ∧
    countEvents Event.isWarning (deployDraftAndWait client draftID).snd =
      (if client.discardPollResp.isSome then 1 else 0) := by
  rw [deployDraftAndWait_fst client draftID dep hsub] at herr
  obtain ⟨h1, h2, h3, h4⟩ := waitFor_err_char client.deploymentResps client.discardPollResp
    draftID dep e herr
  rw [deployDraftAndWait_snd client draftID dep hsub, herr]
  refine ⟨?_, h2, ?_, ?_⟩
  · simpa [countEvents_append, countEvents_cons, countEvents_nil, Event.isDiscard] using h1
  · intro dr2
    rw [deployDraftAndWait_fst { client with discardPollResp := dr2 } draftID dep hsub]
    exact h3 dr2
  · simpa [countEvents_append, countEvents_cons, countEvents_nil, Event.isWarning] using h4

/-- C1 witness: a concrete run in which the single re-fetch fails and the
discard itself fails; the hypotheses of the main theorem hold and its
conclusions follow at this input. -/
theorem claim1_witness :
    countEvents Event.isDiscard (deployDraftAndWait c1Client ("draft1")).snd = 1 ∧
    Except.error (GoError.simple ("transport failure")) ∈ c1Client.deploymentResps ∧
    (∀ dr2 : Option GoError,
      (deployDraftAndWait { c1Client with discardPollResp := dr2 } ("draft1")).fst =
        RunResult.err (GoError.simple ("transport failure"))) ∧
    countEvents Event.isWarning (deployDraftAndWait c1Client ("draft1")).snd =
      (if c1Client.discardPollResp.isSome then 1 else 0) :=
  claim1_compensating_discard c1Client ("draft1") ⟨("dep1"), DeploymentStatus.created⟩
    (GoError.simple ("transport failure")) rfl rfl

/-- C3 counterexample: a concrete run whose deployment reaches the Failed
terminal status. deployDraftAndWait does not report the Failed status to its
caller: it returns the same nil-error success result as a Successful run and
prints the completion log; no discard is issued. This refutes the first half of
the claim (Failed reported as-is) while exhibiting the second half. -/
theorem claim3_counterexample :
    (deployDraftAndWait c3Client ("draft1")).fst = RunResult.ok ∧
    (deployDraftAndWait c3Client ("draft1")).fst = (deployDraftAndWait c3ClientSucc ("draft1")).fst ∧
    Event.textLog ("Deployment complete") ∈ (deployDraftAndWait c3Client ("draft1")).snd ∧
    countEvents Event.isDiscard (deployDraftAndWait c3Client ("draft1")).snd = 0 := by
  refine ⟨rfl, rfl, ?_, rfl⟩
  simp [deployDraftAndWait, c3Client, c3Seq, baseClient, waitForDeployment,
    DeploymentStatus.inflight]

/-- C3 amended: when every status re-fetch succeeds and the observed status
sequence reaches any terminal status — Failed exactly as Successful — the poll
loop simply exits: deployDraftAndWait returns the nil-error success result (the
Failed status is not distinguished for the caller) and issues no DiscardDraft
call and no warning. -/
theorem claim3_amended (client : RealmClient) (draftID : String) (dep : Deployment)
    (ds : List Deployment)
    (hsub : client.deployDraftResp = Except.ok dep)
    (hresps : client.deploymentResps = ds.map Except.ok)
    (hterm : pollExitLen dep ds ≤ ds.length) :
    (deployDraftAndWait client draftID).fst = RunResult.ok ∧
    countEvents Event.isDiscard (deployDraftAndWait client draftID).snd = 0 ∧
    countEvents Event.isWarning (deployDraftAndWait client draftID).snd = 0 := by
  obtain ⟨h1, h2, h3, h4⟩ := waitFor_allOk_char ds client.discardPollResp draftID dep
  rw [deployDraftAndWait_reduce client draftID dep hsub, hresps]
  rw [if_pos hterm] at h1
  rw [h1]
  refine ⟨rfl, ?_, ?_⟩
  · simpa [countEvents_append, countEvents_cons, countEvents_nil, Event.isDiscard] using h3
  · simpa [countEvents_append, countEvents_cons, countEvents_nil, Event.isWarning] using h4

/-- C3 amended witness: the Failed-terminal run satisfies the amended claim. -/
theorem claim3_witness :
    (deployDraftAndWait c3Client ("draft1")).fst = RunResult.ok ∧
    countEvents Event.isDiscard (deployDraftAndWait c3Client ("draft1")).snd = 0 ∧
    countEvents Event.isWarning (deployDraftAndWait c3Client ("draft1")).snd = 0 :=
  claim3_amended c3Client ("draft1") ⟨("dep1"), DeploymentStatus.created⟩ c3Seq rfl rfl
    (by decide)

/-- C4: when every status re-fetch succeeds, the number of re-fetches equals the
length of the in-flight prefix of the observed status sequence (capped by the
number of available answers), no DiscardDraft call is made, and the run returns
success exactly when a terminal status is reached. -/
theorem claim4_poll_loop (client : RealmClient) (draftID : String) (dep : Deployment)
    (ds : List Deployment)
    (hsub : client.deployDraftResp = Except.ok dep)
    (hresps : client.deploymentResps = ds.map Except.ok) :
    countEvents Event.isDeploymentFetch (deployDraftAndWait client draftID).snd =
      min (pollExitLen dep ds) ds.length ∧
    countEvents Event.isDiscard (deployDraftAndWait client draftID).snd = 0 ∧
    ((deployDraftAndWait client draftID).fst = RunResult.ok ↔
      pollExitLen dep ds ≤ ds.length) := by
  obtain ⟨h1, h2, h3, h4⟩ := waitFor_allOk_char ds client.discardPollResp draftID dep
  rw [deployDraftAndWait_reduce client draftID dep hsub, hresps]
  by_cases hle : pollExitLen dep ds ≤ ds.length
  · rw [if_pos hle] at h1
    rw [h1]
    refine ⟨?_, ?_, by simp [hle]⟩
    · simpa [countEvents_append, countEvents_cons, countEvents_nil,
        Event.isDeploymentFetch] using h2
    · simpa [countEvents_append, countEvents_cons, countEvents_nil, Event.isDiscard] using h3
  · rw [if_neg hle] at h1
    rw [h1]
    refine ⟨?_, ?_, by simp [hle]⟩
    · simpa [countEvents_cons, Event.isDeploymentFetch] using h2
    · simpa [countEvents_cons, Event.isDiscard] using h3

theorem createNewDraftDiscard_none_ok (client : RealmClient) (eid : String) (d : AppDraft)
    (hdc : client.discardConflictResp = none)
    (hr : client.createDraftRetryResp = Except.ok d) :
    createNewDraftDiscard client eid =
      (⟨d, true, none⟩, [Event.callDiscardDraft eid, Event.callCreateDraft]) := by
  unfold createNewDraftDiscard
  rw [hdc, hr]

theorem createNewDraftDiscard_none_err (client : RealmClient) (eid : String) (e2 : GoError)
    (hdc : client.discardConflictResp = none)
    (hr : client.createDraftRetryResp = Except.error e2) :
    createNewDraftDiscard client eid =
      (⟨AppDraft.empty, true, some e2⟩, [Event.callDiscardDraft eid, Event.callCreateDraft]) := by
  unfold createNewDraftDiscard
  rw [hdc, hr]

theorem createNewDraftDiscard_some (client : RealmClient) (eid : String) (e : GoError)
    (hdc : client.discardConflictResp = some e) :
    createNewDraftDiscard client eid =
      (⟨AppDraft.empty, false, some e⟩, [Event.callDiscardDraft eid]) := by
  unfold createNewDraftDiscard
  rw [hdc]

theorem createNewDraft_conflict_reduce (ui : UI) (client : RealmClient) (ce : GoError)
    (existing : AppDraft)
    (hconf : client.createDraftResp = Except.error ce)
    (hcode : ce.isDraftConflict = true)
    (hdraft : client.draftResp = Except.ok existing)
    (hpath : ui.autoConfirm = true ∨
      (client.diffDraftResp = Except.ok () ∧ ui.confirmDiscard = Except.ok true)) :
    ∃ pre : List Event,
      createNewDraft ui client =
        ((createNewDraftDiscard client existing.id).fst,
          pre ++ (createNewDraftDiscard client existing.id).snd) ∧
      countEvents Event.isDiscard pre = 0 ∧
      countEvents Event.isCreateDraftCall pre = 1 ∧
      countEvents Event.isDraftFetchCall pre = 1 := by
  by_cases hauto : ui.autoConfirm = true
  · refine ⟨[Event.callCreateDraft, Event.callDraftFetch], ?_, rfl, rfl, rfl⟩
    unfold createNewDraft
    rw [hconf, hdraft]
    simp [hcode, hauto]
  · have hpair : client.diffDraftResp = Except.ok () ∧ ui.confirmDiscard = Except.ok true := by
      rcases hpath with h | h
      · exact absurd h hauto
      · exact h
    refine ⟨[Event.callCreateDraft, Event.callDraftFetch, Event.callDiffDraft existing.id,
      Event.promptConfirm ("Would you like to discard this draft?")], ?_, rfl, rfl, rfl⟩
    unfold createNewDraft
    rw [hconf, hdraft]
    simp [hcode, hauto, hpair.1, hpair.2]

/-- C2: under the draft-already-exists conflict with the discard path taken
(auto-confirm, or draft diff shown and discard confirmed), createNewDraft
fetches the existing draft once and issues exactly one DiscardDraft; when the
discard succeeds, CreateDraft is attempted exactly once more and on success the
new draft is returned with no error; a retry failure (second conflict included)
is returned as the error with no further CreateDraft attempt; a discard failure
is returned as the error with no retry at all; and a first CreateDraft failure
with any non-conflict code is returned at once with a single CreateDraft call
and no discard. -/
theorem claim2_conflict_recovery (ui : UI) (client : RealmClient) (ce : GoError)
    (existing : AppDraft)
    (hconf : client.createDraftResp = Except.error ce)
    (hcode : ce.isDraftConflict = true)
    (hdraft : client.draftResp = Except.ok existing)
    (hpath : ui.autoConfirm = true ∨
      (client.diffDraftResp = Except.ok () ∧ ui.confirmDiscard = Except.ok true)) :
    countEvents Event.isDiscard (createNewDraft ui client).snd = 1 ∧
    countEvents Event.isDraftFetchCall (createNewDraft ui client).snd = 1 ∧
    (∀ d : AppDraft, client.discardConflictResp = none →
      client.createDraftRetryResp = Except.ok d →
      (createNewDraft ui client).fst = ⟨d, true, none⟩ ∧
      countEvents Event.isCreateDraftCall (createNewDraft ui client).snd = 2) ∧
    (∀ e2 : GoError, client.discardConflictResp = none →
      client.createDraftRetryResp = Except.error e2 →
      (createNewDraft ui client).fst.err = some e2 ∧
      countEvents Event.isCreateDraftCall (createNewDraft ui client).snd = 2) ∧
    (∀ e : GoError, client.discardConflictResp = some e →
      (createNewDraft ui client).fst.err = some e ∧
      countEvents Event.isCreateDraftCall (createNewDraft ui client).snd = 1) ∧
    (∀ (c2 : RealmClient) (e0 : GoError), c2.createDraftResp = Except.error e0 →
      e0.isDraftConflict = false →
      createNewDraft ui c2 = (⟨AppDraft.empty, false, some e0⟩, [Event.callCreateDraft])) := by
  obtain ⟨pre, heq, hp0, hp1, hp2⟩ :=
    createNewDraft_conflict_reduce ui client ce existing hconf hcode hdraft hpath
  refine ⟨?_, ?_, ?_, ?_, ?_, ?_⟩
  · rw [heq]
    simp only [countEvents_append, hp0, Nat.zero_add]
    rcases hdc : client.discardConflictResp with _ | e
    · rcases hr : client.createDraftRetryResp with e2 | d
      · rw [createNewDraftDiscard_none_err client existing.id e2 hdc hr]; rfl
      · rw [createNewDraftDiscard_none_ok client existing.id d hdc hr]; rfl
    · rw [createNewDraftDiscard_some client existing.id e hdc]; rfl
  · rw [heq]
    simp only [countEvents_append, hp2]
    rcases hdc : client.discardConflictResp with _ | e
    · rcases hr : client.createDraftRetryResp with e2 | d
      · rw [createNewDraftDiscard_none_err client existing.id e2 hdc hr]; rfl
      · rw [createNewDraftDiscard_none_ok client existing.id d hdc hr]; rfl
    · rw [createNewDraftDiscard_some client existing.id e hdc]; rfl
  · intro d hdc hr
    rw [heq, createNewDraftDiscard_none_ok client existing.id d hdc hr]
    refine ⟨rfl, ?_⟩
    simp only [countEvents_append, hp1]
    rfl
  · intro e2 hdc hr
    rw [heq, createNewDraftDiscard_none_err client existing.id e2 hdc hr]
    refine ⟨rfl, ?_⟩
    simp only [countEvents_append, hp1]
    rfl
  · intro e hdc
    rw [heq, createNewDraftDiscard_some client existing.id e hdc]
    refine ⟨rfl, ?_⟩
    simp only [countEvents_append, hp1]
    rfl
  · intro c2 e0 h0 hcode0
    unfold createNewDraft
    rw [h0]
    simp [hcode0]

/-- C2 witness: the concrete conflict run ends with the new draft id draft2,
after exactly the call sequence CreateDraft, Draft, DiscardDraft(draft0),
CreateDraft. -/
theorem claim2_witness :
    createNewDraft baseUI c2Client =
      (⟨⟨("draft2")⟩, true, none⟩,
        [Event.callCreateDraft, Event.callDraftFetch, Event.callDiscardDraft ("draft0"),
          Event.callCreateDraft]) ∧
    countEvents Event.isDiscard (createNewDraft baseUI c2Client).snd = 1 := by
  have h := claim2_conflict_recovery baseUI c2Client c2Conflict ⟨("draft0")⟩ rfl (by decide)
    rfl (Or.inl rfl)
  refine ⟨?_, h.1⟩
  rfl

theorem createAppCall_events (env : LocalEnv) (client : RealmClient) (g n l d : String) :
    ∀ e ∈ (createAppCall env client g n l d).snd, e = Event.callCreateApp g n l d := by
  rw [createAppCall_snd]
  simp

theorem createNewAppDm_events (ui : UI) (env : LocalEnv) (client : RealmClient) (g : String)
    (a : Option AppData) (n l : String) :
    ∀ e ∈ (createNewAppDm ui env client g a n l).snd,
      e.isPrompt = true ∨ ∃ nn ll dd, e = Event.callCreateApp g nn ll dd := by
  unfold createNewAppDm
  by_cases hauto : ui.autoConfirm = true
  · simp only [hauto, if_true]
    intro e he
    exact Or.inr ⟨_, _, _, createAppCall_events env client g n l _ e he⟩
  · simp only [hauto, Bool.false_eq_true, if_false]
    rcases hdm : ui.askDeploymentModel with e0 | dm
    · intro e he
      simp at he
      subst he
      exact Or.inl rfl
    · intro e he
      simp at he
      rcases he with he | he
      · subst he
        exact Or.inl rfl
      · exact Or.inr ⟨_, _, _, createAppCall_events env client g n l dm e he⟩

theorem createNewAppLoc_events (ui : UI) (env : LocalEnv) (client : RealmClient) (g : String)
    (a : Option AppData) (n : String) :
    ∀ e ∈ (createNewAppLoc ui env client g a n).snd,
      e.isPrompt = true ∨ ∃ nn ll dd, e = Event.callCreateApp g nn ll dd := by
  unfold createNewAppLoc
  by_cases hauto : ui.autoConfirm = true
  · simp only [hauto, if_true]
    exact createNewAppDm_events ui env client g a n _
  · simp only [hauto, Bool.false_eq_true, if_false]
    rcases hl : ui.askLocation with e0 | l
    · intro e he
      simp at he
      subst he
      exact Or.inl rfl
    · intro e he
      simp at he
      rcases he with he | he
      · subst he
        exact Or.inl rfl
      · exact createNewAppDm_events ui env client g a n l e he

theorem createNewAppName_events (ui : UI) (env : LocalEnv) (client : RealmClient) (g : String)
    (a : Option AppData) :
    ∀ e ∈ (createNewAppName ui env client g a).snd,
      e.isPrompt = true ∨ ∃ nn ll dd, e = Event.callCreateApp g nn ll dd := by
  unfold createNewAppName
  by_cases hcond : derivedName a = "" ∨ ui.autoConfirm = false
  · simp only [hcond, if_true]
    rcases hn : ui.askName with e0 | n
    · intro e he
      simp at he
      subst he
      exact Or.inl rfl
    · intro e he
      simp at he
      rcases he with he | he
      · subst he
        exact Or.inl rfl
      · exact createNewAppLoc_events ui env client g a n e he
  · simp only [hcond, if_false]
    exact createNewAppLoc_events ui env client g a _

theorem createNewApp_events (ui : UI) (env : LocalEnv) (client : RealmClient) (g : String)
    (a : Option AppData) :
    ∀ e ∈ (createNewApp ui env client g a).snd,
      e.isPrompt = true ∨ ∃ nn ll dd, e = Event.callCreateApp g nn ll dd := by
  unfold createNewApp
  by_cases hauto : ui.autoConfirm = true
  · simp only [hauto, if_true]
    exact createNewAppName_events ui env client g a
  · simp only [hauto, Bool.false_eq_true, if_false]
    rcases hc : ui.confirmCreateApp with e0 | b
    · intro e he
      simp at he
      subst he
      exact Or.inl rfl
    · cases b
      · intro e he
        simp at he
        subst he
        exact Or.inl rfl
      · intro e he
        simp at he
        rcases he with he | he
        · subst he
          exact Or.inl rfl
        · exact createNewAppName_events ui env client g a e he

theorem prompt_not_mutatingPush (e : Event) (h : e.isPrompt = true) :
    e.isMutatingPush = false := by
  cases e <;> simp_all [Event.isPrompt, Event.isMutatingPush]

theorem createApp_not_mutatingPush (g n l d : String) :
    (Event.callCreateApp g n l d).isMutatingPush = false := rfl

theorem createNewApp_mutPush_zero (ui : UI) (env : LocalEnv) (client : RealmClient)
    (g : String) (a : Option AppData) :
    countEvents Event.isMutatingPush (createNewApp ui env client g a).snd = 0 := by
  apply countEvents_eq_zero
  intro e he
  rcases createNewApp_events ui env client g a e he with hp | ⟨nn, ll, dd, rfl⟩
  · exact prompt_not_mutatingPush e hp
  · rfl

theorem createNewApp_auto_eq (ui : UI) (env : LocalEnv) (client : RealmClient) (g : String)
    (a : Option AppData) (hauto : ui.autoConfirm = true)
    (hname : derivedName a ≠ "") :
    createNewApp ui env client g a =
      createAppCall env client g (derivedName a) (derivedLocation a)
        (derivedDeploymentModel a) := by
  unfold createNewApp createNewAppName createNewAppLoc createNewAppDm
  simp [hauto, hname]

/-- C4 witness: for the status sequence Created, Pending, Pending, Successful
the poller performs exactly 3 re-fetches, returns success, and makes no
DiscardDraft call. -/
theorem claim4_witness :
    countEvents Event.isDeploymentFetch (deployDraftAndWait c4Client ("draft1")).snd = 3 ∧
    countEvents Event.isDiscard (deployDraftAndWait c4Client ("draft1")).snd = 0 ∧
    (deployDraftAndWait c4Client ("draft1")).fst = RunResult.ok := by
  obtain ⟨h1, h2, h3⟩ := claim4_poll_loop c4Client ("draft1")
    ⟨("dep1"), DeploymentStatus.created⟩ c4Seq rfl rfl
  refine ⟨?_, h2, h3.mpr (by decide)⟩
  rw [h1]
  decide

theorem pushAfterApp_empty_stop (ui : UI) (env : LocalEnv) (client : RealmClient)
    (inputs : PushInputs) (b : Bool) (hd : HostingDiffs)
    (hdiff : client.diffResp = Except.ok [])
    (hdeps : inputs.includeDependencies = false)
    (hfah : env.findAppHostingResp = Except.ok ())
    (hha : client.hostingAssetsResp = Except.ok ())
    (hhd : env.hostingDiffsResp = Except.ok hd)
    (hsz : hd.size = 0) :
    (pushAfterApp ui env client inputs b).fst = RunResult.ok ∧
    countEvents Event.isMutatingPush (pushAfterApp ui env client inputs b).snd = 0 := by
  unfold pushAfterApp
  rw [hdiff, hfah]
  by_cases hih : inputs.includeHosting = true
  · simp [hih, hha, hhd, hdeps, hsz, countEvents, Event.isMutatingPush]
  · simp [hih, hdeps, HostingDiffs.empty, countEvents, Event.isMutatingPush]

theorem pushAfterApp_dryRun (ui : UI) (env : LocalEnv) (client : RealmClient)
    (inputs : PushInputs) (b : Bool) (hdry : inputs.dryRun = true) :
    countEvents Event.isMutatingAny (pushAfterApp ui env client inputs b).snd = 0 := by
  unfold pushAfterApp
  rcases h1 : client.diffResp with e | ds
  · simp [countEvents, Event.isMutatingAny, Event.isMutatingPush]
  · rcases h2 : env.findAppHostingResp with e | u
    · simp [countEvents, Event.isMutatingAny, Event.isMutatingPush]
    · by_cases hih : inputs.includeHosting = true
      · rcases h3 : client.hostingAssetsResp with e | u2
        · simp [hih, h3, countEvents, Event.isMutatingAny, Event.isMutatingPush]
        · rcases h4 : env.hostingDiffsResp with e | hdv
          · simp [hih, h3, h4, countEvents, Event.isMutatingAny, Event.isMutatingPush]
          · by_cases hempty : (ds = [] ∧ inputs.includeDependencies = false ∧ hdv.size = 0)
            · simp [hih, h3, h4, hempty, countEvents, Event.isMutatingAny, Event.isMutatingPush]
            · by_cases hpres : (ui.autoConfirm = false ∧ b = false)
              · simp [hih, h3, h4, hempty, hpres, hdry, countEvents, Event.isMutatingAny,
                  Event.isMutatingPush]
              · simp [hih, h3, h4, hempty, hpres, hdry, countEvents, Event.isMutatingAny,
                  Event.isMutatingPush]
      · by_cases hempty : (ds = [] ∧ inputs.includeDependencies = false ∧
          HostingDiffs.empty.size = 0)
        · simp [hih, hempty, countEvents, Event.isMutatingAny, Event.isMutatingPush]
        · by_cases hpres : (ui.autoConfirm = false ∧ b = false)
          · simp [hih, hempty, hpres, hdry, countEvents, Event.isMutatingAny,
              Event.isMutatingPush]
          · simp [hih, hempty, hpres, hdry, countEvents, Event.isMutatingAny,
              Event.isMutatingPush]

/-- C5: when the computed app diff is empty, the dependency flag is unset and
the hosting diff has size zero (reaching the app, if needed, via a successful
createNewApp), the push handler stops with the nil-error success result and the
run contains no CreateDraft, Import, DeployDraft, DiscardDraft,
ImportDependencies, UploadHostingAssets or cache-invalidate call. -/
theorem claim5_idempotent (ui : UI) (env : LocalEnv) (client : RealmClient)
    (inputs : PushInputs) (target : To) (appData : Option AppData) (hd : HostingDiffs)
    (hdiff : client.diffResp = Except.ok [])
    (hdeps : inputs.includeDependencies = false)
    (hfah : env.findAppHostingResp = Except.ok ())
    (hha : client.hostingAssetsResp = Except.ok ())
    (hhd : env.hostingDiffsResp = Except.ok hd)
    (hsz : hd.size = 0)
    (hnew : target.appID = "" → inputs.dryRun = false ∧
      (createNewApp ui env client target.groupID appData).fst.err = none ∧
      (createNewApp ui env client target.groupID appData).fst.proceed = true) :
    (pushHandler ui env client inputs target appData).fst = RunResult.ok ∧
    countEvents Event.isMutatingPush
      (pushHandler ui env client inputs target appData).snd = 0 := by
  obtain ⟨ha1, ha2⟩ :=
    pushAfterApp_empty_stop ui env client inputs true hd hdiff hdeps hfah hha hhd hsz
  obtain ⟨hb1, hb2⟩ :=
    pushAfterApp_empty_stop ui env client inputs false hd hdiff hdeps hfah hha hhd hsz
  unfold pushHandler
  by_cases happ : target.appID = ""
  · obtain ⟨hdry, herr, hproc⟩ := hnew happ
    rw [if_pos happ]
    simp only [hdry, Bool.false_eq_true, if_false, herr, hproc, if_true]
    refine ⟨ha1, ?_⟩
    rw [countEvents_append, createNewApp_mutPush_zero, ha2]
  · rw [if_neg happ]
    exact ⟨hb1, hb2⟩

/-- C5 witness: identical local and remote state with an existing app; the run
stops successfully with zero mutating calls. -/
theorem claim5_witness :
    (pushHandler baseUI baseEnv baseClient basePushInputs baseTarget
      (some baseAppData)).fst = RunResult.ok ∧
    countEvents Event.isMutatingPush
      (pushHandler baseUI baseEnv baseClient basePushInputs baseTarget
        (some baseAppData)).snd = 0 :=
  claim5_idempotent baseUI baseEnv baseClient basePushInputs baseTarget (some baseAppData)
    HostingDiffs.empty rfl rfl rfl rfl rfl rfl
    (by intro h; exact absurd h (by decide))

/-- C6: with the dry-run flag set, no run of the push handler ever makes a
mutating remote call (CreateApp, CreateDraft, Import, DeployDraft,
DiscardDraft, ImportDependencies, UploadHostingAssets or cache invalidation),
whatever the target, local data and collaborator responses. -/
theorem claim6_dry_run (ui : UI) (env : LocalEnv) (client : RealmClient)
    (inputs : PushInputs) (target : To) (appData : Option AppData)
    (hdry : inputs.dryRun = true) :
    countEvents Event.isMutatingAny
      (pushHandler ui env client inputs target appData).snd = 0 := by
  unfold pushHandler
  by_cases happ : target.appID = ""
  · rw [if_pos happ]
    simp [hdry, countEvents, Event.isMutatingAny, Event.isMutatingPush]
  · rw [if_neg happ]
    exact pushAfterApp_dryRun ui env client inputs false hdry

/-- C6 witness: a concrete dry-run against an existing app makes no mutating
call. -/
theorem claim6_witness :
    countEvents Event.isMutatingAny
      (pushHandler baseUI baseEnv baseClient dryRunInputs baseTarget
        (some baseAppData)).snd = 0 :=
  claim6_dry_run baseUI baseEnv baseClient dryRunInputs baseTarget (some baseAppData) rfl

/-- C8: without auto-confirm and with an already-existing app (so the app was
not created during the run), once the flow reaches the confirmation point the
handler has presented the combined diff, shows the explicit confirmation
prompt, and a decline ends the run with the nil-error success result and zero
mutating remote calls. -/
theorem claim8_decline (ui : UI) (env : LocalEnv) (client : RealmClient)
    (inputs : PushInputs) (target : To) (appData : Option AppData)
    (ds : List String) (hd : HostingDiffs)
    (hauto : ui.autoConfirm = false)
    (happ : target.appID ≠ "")
    (hdry : inputs.dryRun = false)
    (hdiff : client.diffResp = Except.ok ds)
    (hfah : env.findAppHostingResp = Except.ok ())
    (hha : client.hostingAssetsResp = Except.ok ())
    (hhd : env.hostingDiffsResp = Except.ok hd)
    (hne : ¬ (ds = [] ∧ inputs.includeDependencies = false ∧
      (if inputs.includeHosting = true then hd else HostingDiffs.empty).size = 0))
    (hdecline : ui.confirmChanges = Except.ok false) :
    (pushHandler ui env client inputs target appData).fst = RunResult.ok ∧
    Event.diffLog (combinedDiffs ds inputs.includeDependencies
        (if inputs.includeHosting = true then hd else HostingDiffs.empty)) ∈
      (pushHandler ui env client inputs target appData).snd ∧
    Event.promptConfirm ("Please confirm the changes shown above") ∈
      (pushHandler ui env client inputs target appData).snd ∧
    countEvents Event.isMutatingAny
      (pushHandler ui env client inputs target appData).snd = 0 := by
  unfold pushHandler
  rw [if_neg happ]
  unfold pushAfterApp
  rw [hdiff, hfah]
  by_cases hih : inputs.includeHosting = true
  · have hne2 : ¬ (ds = [] ∧ inputs.includeDependencies = false ∧ hd.size = 0) := by
      simpa [hih] using hne
    simp [hih, hha, hhd, hne2, hauto, hdry, hdecline, countEvents, Event.isMutatingAny,
      Event.isMutatingPush]
  · have hne2 : ¬ (ds = [] ∧ inputs.includeDependencies = false ∧
        HostingDiffs.empty.size = 0) := by
      simpa [hih] using hne
    simp [hih, hne2, hauto, hdry, hdecline, countEvents, Event.isMutatingAny,
      Event.isMutatingPush]

/-- C8 witness: an interactive run against an existing app with a non-empty
diff; the user declines and the run ends cleanly with no mutating call. -/
theorem claim8_witness :
    (pushHandler c8UI baseEnv c8Client basePushInputs baseTarget
      (some baseAppData)).fst = RunResult.ok ∧
    Event.promptConfirm ("Please confirm the changes shown above") ∈
      (pushHandler c8UI baseEnv c8Client basePushInputs baseTarget
        (some baseAppData)).snd ∧
    countEvents Event.isMutatingAny
      (pushHandler c8UI baseEnv c8Client basePushInputs baseTarget
        (some baseAppData)).snd = 0 := by
  have h := claim8_decline c8UI baseEnv c8Client basePushInputs baseTarget (some baseAppData)
    [("- removed thing")] HostingDiffs.empty rfl (by decide) rfl rfl rfl rfl rfl
    (by decide) rfl
  exact ⟨h.1, h.2.2.1, h.2.2.2⟩

/-- C9: with the dependency flag set, the diff command prints the app diff
lines followed by exactly the one fixed advisory line and then the hosting diff
lines (whatever the actual dependency state, which is never consulted); and the
push handler presents its combined diff with the advisory in the same position
between app-structure lines and hosting lines. -/
theorem claim9_dependency_advisory (env : LocalEnv) (client : RealmClient)
    (dinputs : DiffInputs) (ds : List String) (hd : HostingDiffs)
    (hdep : dinputs.includeDependencies = true)
    (hdiff : client.diffResp = Except.ok ds)
    (hfah : env.findAppHostingResp = Except.ok ())
    (hha : client.hostingAssetsResp = Except.ok ())
    (hhd : env.hostingDiffsResp = Except.ok hd) :
    (diffHandler env client dinputs).fst = RunResult.ok ∧
    Event.diffLog (ds ++ dependencyAdvisory ::
        (if dinputs.includeHosting = true then hd.strings else [])) ∈
      (diffHandler env client dinputs).snd ∧
    (∀ (a : List String) (h : HostingDiffs),
      combinedDiffs a true h = a ++ dependencyAdvisory :: h.strings) := by
  have hmain : (diffHandler env client dinputs).fst = RunResult.ok ∧
      Event.diffLog (ds ++ dependencyAdvisory ::
        (if dinputs.includeHosting = true then hd.strings else [])) ∈
      (diffHandler env client dinputs).snd := by
    unfold diffHandler
    rw [hdiff]
    by_cases hih : dinputs.includeHosting = true
    · simp [hih, hdep, hfah, hha, hhd, diffFinish]
    · simp [hih, hdep, diffFinish]
  exact ⟨hmain.1, hmain.2, fun a h => by simp [combinedDiffs]⟩

/-- C9 witness: the diff command with the dependency flag set prints the app
diff line followed by the advisory line. -/
theorem claim9_witness :
    (diffHandler baseEnv c9Client c9DiffInputs).fst = RunResult.ok ∧
    Event.diffLog [("* changed app"), dependencyAdvisory] ∈
      (diffHandler baseEnv c9Client c9DiffInputs).snd := by
  have h := claim9_dependency_advisory baseEnv c9Client c9DiffInputs [("* changed app")]
    HostingDiffs.empty rfl rfl rfl rfl rfl
  refine ⟨h.1, ?_⟩
  simpa using h.2.1

theorem pushDeployPhase_import_err (ui : UI) (env : LocalEnv) (client : RealmClient)
    (inputs : PushInputs) (d : AppDraft) (e : GoError)
    (hdraft : client.createDraftResp = Except.ok d)
    (himp : client.importResp = some e) :
    pushDeployPhase ui env client inputs =
      (RunResult.err e,
        [Event.textLog ("Creating draft"), Event.callCreateDraft,
          Event.textLog ("Pushing changes"), Event.callImport]) := by
  unfold pushDeployPhase
  rw [createNewDraft_first_ok ui client d hdraft]
  simp [himp]

theorem pushDeployPhase_deploy_err (ui : UI) (env : LocalEnv) (client : RealmClient)
    (inputs : PushInputs) (d : AppDraft) (e : GoError)
    (hdraft : client.createDraftResp = Except.ok d)
    (himp : client.importResp = none)
    (hdep : client.deployDraftResp = Except.error e) :
    pushDeployPhase ui env client inputs =
      (RunResult.err e,
        [Event.textLog ("Creating draft"), Event.callCreateDraft,
          Event.textLog ("Pushing changes"), Event.callImport,
          Event.textLog ("Deploying draft"), Event.callDeployDraft d.id]) := by
  unfold pushDeployPhase
  rw [createNewDraft_first_ok ui client d hdraft]
  simp [himp, deployDraftAndWait, hdep]

theorem pushAfterApp_proceed (ui : UI) (env : LocalEnv) (client : RealmClient)
    (inputs : PushInputs) (b : Bool) (ds : List String) (hd : HostingDiffs)
    (hdiff : client.diffResp = Except.ok ds)
    (hfah : env.findAppHostingResp = Except.ok ())
    (hha : client.hostingAssetsResp = Except.ok ())
    (hhd : env.hostingDiffsResp = Except.ok hd)
    (hne : ¬ (ds = [] ∧ inputs.includeDependencies = false ∧
      (if inputs.includeHosting = true then hd else HostingDiffs.empty).size = 0))
    (hdry : inputs.dryRun = false)
    (hconfirm : ui.autoConfirm = true ∨ ui.confirmChanges = Except.ok true)
    (p : Event → Bool)
    (hp1 : p Event.callDiff = false)
    (hp2 : p Event.callHostingAssets = false)
    (hp3 : ∀ s, p (Event.textLog s) = false)
    (hp4 : ∀ l, p (Event.diffLog l) = false)
    (hp5 : ∀ s, p (Event.promptConfirm s) = false) :
    (pushAfterApp ui env client inputs b).fst = (pushDeployPhase ui env client inputs).fst ∧
    countEvents p (pushAfterApp ui env client inputs b).snd =
      countEvents p (pushDeployPhase ui env client inputs).snd := by
  unfold pushAfterApp
  rw [hdiff, hfah]
  by_cases hauto : ui.autoConfirm = true
  · by_cases hih : inputs.includeHosting = true
    · have hne2 : ¬ (ds = [] ∧ inputs.includeDependencies = false ∧ hd.size = 0) := by
        simpa [hih] using hne
      simp [hih, hha, hhd, hne2, hauto, hdry, countEvents_append, countEvents_cons,
        countEvents_nil, hp1, hp2, hp3, hp4, hp5]
    · have hne2 : ¬ (ds = [] ∧ inputs.includeDependencies = false ∧
          HostingDiffs.empty.size = 0) := by
        simpa [hih] using hne
      simp [hih, hne2, hauto, hdry, countEvents_append, countEvents_cons,
        countEvents_nil, hp1, hp2, hp3, hp4, hp5]
  · have hcc : ui.confirmChanges = Except.ok true := by
      rcases hconfirm with h | h
      · exact absurd h hauto
      · exact h
    by_cases hih : inputs.includeHosting = true
    · have hne2 : ¬ (ds = [] ∧ inputs.includeDependencies = false ∧ hd.size = 0) := by
        simpa [hih] using hne
      by_cases hpres : b = false
      · simp [hih, hha, hhd, hne2, hauto, hpres, hdry, hcc, countEvents_append,
          countEvents_cons, countEvents_nil, hp1, hp2, hp3, hp4, hp5]
      · simp [hih, hha, hhd, hne2, hauto, hpres, hdry, hcc, countEvents_append,
          countEvents_cons, countEvents_nil, hp1, hp2, hp3, hp4, hp5]
    · have hne2 : ¬ (ds = [] ∧ inputs.includeDependencies = false ∧
          HostingDiffs.empty.size = 0) := by
        simpa [hih] using hne
      by_cases hpres : b = false
      · simp [hih, hne2, hauto, hpres, hdry, hcc, countEvents_append,
          countEvents_cons, countEvents_nil, hp1, hp2, hp3, hp4, hp5]
      · simp [hih, hne2, hauto, hpres, hdry, hcc, countEvents_append,
          countEvents_cons, countEvents_nil, hp1, hp2, hp3, hp4, hp5]

/-- C10: once a draft has been created on the first CreateDraft attempt, an
Import failure or a failure of the initial DeployDraft submission makes the
push handler return that error with no DiscardDraft call anywhere in the run
(and, for a DeployDraft failure, no status re-fetch either): the compensating
discard belongs only to status re-fetch failures. -/
theorem claim10_early_failure_no_discard (ui : UI) (env : LocalEnv) (client : RealmClient)
    (inputs : PushInputs) (target : To) (appData : Option AppData)
    (ds : List String) (hd : HostingDiffs) (d : AppDraft)
    (happ : target.appID ≠ "")
    (hdry : inputs.dryRun = false)
    (hdiff : client.diffResp = Except.ok ds)
    (hfah : env.findAppHostingResp = Except.ok ())
    (hha : client.hostingAssetsResp = Except.ok ())
    (hhd : env.hostingDiffsResp = Except.ok hd)
    (hne : ¬ (ds = [] ∧ inputs.includeDependencies = false ∧
      (if inputs.includeHosting = true then hd else HostingDiffs.empty).size = 0))
    (hconfirm : ui.autoConfirm = true ∨ ui.confirmChanges = Except.ok true)
    (hdraft : client.createDraftResp = Except.ok d) :
    (∀ e : GoError, client.importResp = some e →
      (pushHandler ui env client inputs target appData).fst = RunResult.err e ∧
      countEvents Event.isDiscard
        (pushHandler ui env client inputs target appData).snd = 0) ∧
    (∀ e : GoError, client.importResp = none →
      client.deployDraftResp = Except.error e →
      (pushHandler ui env client inputs target appData).fst = RunResult.err e ∧
      countEvents Event.isDiscard
        (pushHandler ui env client inputs target appData).snd = 0 ∧
      countEvents Event.isDeploymentFetch
        (pushHandler ui env client inputs target appData).snd = 0) := by
  have hA := pushAfterApp_proceed ui env client inputs false ds hd hdiff hfah hha hhd hne
    hdry hconfirm Event.isDiscard rfl rfl (fun s => rfl) (fun l => rfl) (fun s => rfl)
  have hB := pushAfterApp_proceed ui env client inputs false ds hd hdiff hfah hha hhd hne
    hdry hconfirm Event.isDeploymentFetch rfl rfl (fun s => rfl) (fun l => rfl) (fun s => rfl)
  unfold pushHandler
  rw [if_neg happ]
  constructor
  · intro e himp
    have hphase := pushDeployPhase_import_err ui env client inputs d e hdraft himp
    refine ⟨?_, ?_⟩
    · rw [hA.1, hphase]
    · rw [hA.2, hphase]
      rfl
  · intro e himp hdep
    have hphase := pushDeployPhase_deploy_err ui env client inputs d e hdraft himp hdep
    refine ⟨?_, ?_, ?_⟩
    · rw [hA.1, hphase]
    · rw [hA.2, hphase]
      rfl
    · rw [hB.2, hphase]
      rfl

/-- C10 witness: concrete runs in which Import fails (client c10Client) and in
which DeployDraft fails (client c10ClientB); both propagate the error with no
discard, and the DeployDraft failure causes no status re-fetch. -/
theorem claim10_witness :
    (pushHandler baseUI baseEnv c10Client basePushInputs baseTarget
      (some baseAppData)).fst = RunResult.err (GoError.simple ("import failed")) ∧
    countEvents Event.isDiscard
      (pushHandler baseUI baseEnv c10Client basePushInputs baseTarget
        (some baseAppData)).snd = 0 ∧
    (pushHandler baseUI baseEnv c10ClientB basePushInputs baseTarget
      (some baseAppData)).fst = RunResult.err (GoError.simple ("deploy failed")) ∧
    countEvents Event.isDiscard
      (pushHandler baseUI baseEnv c10ClientB basePushInputs baseTarget
        (some baseAppData)).snd = 0 ∧
    countEvents Event.isDeploymentFetch
      (pushHandler baseUI baseEnv c10ClientB basePushInputs baseTarget
        (some baseAppData)).snd = 0 := by
  have h1 := claim10_early_failure_no_discard baseUI baseEnv c10Client basePushInputs
    baseTarget (some baseAppData) [("* changed app")] HostingDiffs.empty ⟨("draft1")⟩
    (by decide) rfl rfl rfl rfl rfl (by decide) (Or.inl rfl) rfl
  have h2 := claim10_early_failure_no_discard baseUI baseEnv c10ClientB basePushInputs
    baseTarget (some baseAppData) [("* changed app")] HostingDiffs.empty ⟨("draft1")⟩
    (by decide) rfl rfl rfl rfl rfl (by decide) (Or.inl rfl) rfl
  obtain ⟨ha1, ha2⟩ := h1.1 (GoError.simple ("import failed")) rfl
  obtain ⟨hb1, hb2, hb3⟩ := h2.2 (GoError.simple ("deploy failed")) rfl rfl
  exact ⟨ha1, ha2, hb1, hb2, hb3⟩

theorem waitFor_benign (resps : List (Except GoError Deployment)) :
    ∀ (dr : Option GoError) (draftID : String) (dep : Deployment),
    ∀ e ∈ (waitForDeployment resps dr draftID dep).snd,
      Event.isPromptOrCreateApp e = false := by
  induction resps with
  | nil =>
      intro dr draftID dep e he
      by_cases hs : dep.status.inflight = true <;> simp [waitForDeployment, hs] at he
  | cons r rest ih =>
      intro dr draftID dep e he
      by_cases hs : dep.status.inflight = true
      · cases r with
        | ok dep2 =>
            simp only [waitForDeployment, hs, if_true, List.mem_cons] at he
            rcases he with he | he
            · subst he; rfl
            · exact ih dr draftID dep2 e he
        | error e0 =>
            cases dr with
            | none =>
                simp [waitForDeployment, hs] at he
                rcases he with he | he <;> (subst he; rfl)
            | some w =>
                simp [waitForDeployment, hs] at he
                rcases he with he | he | he <;> (subst he; rfl)
      · simp [waitForDeployment, hs] at he

theorem deployDraftAndWait_benign (client : RealmClient) (draftID : String) :
    ∀ e ∈ (deployDraftAndWait client draftID).snd, Event.isPromptOrCreateApp e = false := by
  intro e he
  rcases hdd : client.deployDraftResp with e0 | dep
  · unfold deployDraftAndWait at he
    rw [hdd] at he
    simp at he
    subst he; rfl
  · rw [deployDraftAndWait_reduce client draftID dep hdd] at he
    rcases hfst : (waitForDeployment client.deploymentResps client.discardPollResp
      draftID dep).fst with _ | e1 | _ <;> rw [hfst] at he <;> simp at he
    · rcases he with he | he | he
      · subst he; rfl
      · exact waitFor_benign client.deploymentResps client.discardPollResp draftID dep e he
      · subst he; rfl
    · rcases he with he | he
      · subst he; rfl
      · exact waitFor_benign client.deploymentResps client.discardPollResp draftID dep e he
    · rcases he with he | he
      · subst he; rfl
      · exact waitFor_benign client.deploymentResps client.discardPollResp draftID dep e he

theorem pushDependencies_benign (env : LocalEnv) (client : RealmClient)
    (inputs : PushInputs) :
    ∀ e ∈ (pushDependencies env client inputs).snd, Event.isPromptOrCreateApp e = false := by
  intro e he
  by_cases hinc : inputs.includeDependencies = true
  · rcases hfd : env.findAppDependenciesResp with e0 | u
    · simp [pushDependencies, hinc, hfd] at he
    · rcases hpu : env.prepareUploadResp with e0 | pth
      · simp [pushDependencies, hinc, hfd, hpu] at he
      · rcases himp : client.importDependenciesResp with _ | e0
        · simp [pushDependencies, hinc, hfd, hpu, himp] at he
          rcases he with he | he | he <;> (subst he; rfl)
        · simp [pushDependencies, hinc, hfd, hpu, himp] at he
          rcases he with he | he <;> (subst he; rfl)
  · simp [pushDependencies, hinc] at he

theorem pushHosting_benign (client : RealmClient) (inputs : PushInputs) :
    ∀ e ∈ (pushHosting client inputs).snd, Event.isPromptOrCreateApp e = false := by
  intro e he
  by_cases hinc : inputs.includeHosting = true
  · rcases hup : client.uploadHostingAssetsResp with _ | e0
    · by_cases hcdn : inputs.resetCDNCache = true
      · rcases hci : client.cacheInvalidateResp with _ | e0
        · simp [pushHosting, hinc, hup, hcdn, hci] at he
          rcases he with he | he | he | he <;> (subst he; rfl)
        · simp [pushHosting, hinc, hup, hcdn, hci] at he
          rcases he with he | he | he <;> (subst he; rfl)
      · simp [pushHosting, hinc, hup, hcdn] at he
        rcases he with he | he <;> (subst he; rfl)
    · simp [pushHosting, hinc, hup] at he
      subst he; rfl
  · simp [pushHosting, hinc] at he

theorem createNewDraftDiscard_benign (client : RealmClient) (eid : String) :
    ∀ e ∈ (createNewDraftDiscard client eid).snd, Event.isPromptOrCreateApp e = false := by
  intro e he
  rcases hdc : client.discardConflictResp with _ | e0
  · rcases hr : client.createDraftRetryResp with e1 | d
    · rw [createNewDraftDiscard_none_err client eid e1 hdc hr] at he
      simp at he
      rcases he with he | he <;> (subst he; rfl)
    · rw [createNewDraftDiscard_none_ok client eid d hdc hr] at he
      simp at he
      rcases he with he | he <;> (subst he; rfl)
  · rw [createNewDraftDiscard_some client eid e0 hdc] at he
    simp at he
    subst he; rfl

theorem createNewDraft_auto_benign (ui : UI) (client : RealmClient)
    (hauto : ui.autoConfirm = true) :
    ∀ e ∈ (createNewDraft ui client).snd, Event.isPromptOrCreateApp e = false := by
  intro e he
  simp only [createNewDraft] at he
  rcases hcd : client.createDraftResp with e0 | d <;> rw [hcd] at he
  · by_cases hconf : e0.isDraftConflict = false
    · simp [hconf] at he
      subst he; rfl
    · rcases hdr : client.draftResp with e1 | ex <;> rw [hdr] at he
      · simp [hconf] at he
        rcases he with he | he <;> (subst he; rfl)
      · simp [hconf, hauto] at he
        rcases he with he | he | he
        · subst he; rfl
        · subst he; rfl
        · exact createNewDraftDiscard_benign client ex.id e he
  · simp at he
    subst he; rfl

theorem countEvents_zero_iff (p : Event → Bool) (l : List Event) :
    countEvents p l = 0 ↔ ∀ e ∈ l, p e = false := by
  constructor
  · intro h e he
    by_contra hc
    have hc2 : p e = true := by
      cases hp : p e
      · exact absurd hp hc
      · rfl
    have : e ∈ l.filter p := List.mem_filter.mpr ⟨he, hc2⟩
    have hlen : l.filter p = [] := List.length_eq_zero.mp h
    rw [hlen] at this
    simp at this
  · exact countEvents_eq_zero

theorem benign_event_no_prompt (e : Event) (h : Event.isPromptOrCreateApp e = false) :
    e.isPrompt = false := by
  cases e <;> simp_all [Event.isPromptOrCreateApp, Event.isPrompt]

theorem countPrompt_of_benign (l : List Event)
    (h : countEvents Event.isPromptOrCreateApp l = 0) :
    countEvents Event.isPrompt l = 0 :=
  (countEvents_zero_iff _ _).mpr
    (fun e he => benign_event_no_prompt e ((countEvents_zero_iff _ _).mp h e he))

theorem pushDeployPhase_auto_count (ui : UI) (env : LocalEnv) (client : RealmClient)
    (inputs : PushInputs) (hauto : ui.autoConfirm = true) :
    countEvents Event.isPromptOrCreateApp (pushDeployPhase ui env client inputs).snd = 0 := by
  have hc := (countEvents_zero_iff _ _).mpr (createNewDraft_auto_benign ui client hauto)
  have hw := (countEvents_zero_iff _ _).mpr
    (deployDraftAndWait_benign client (createNewDraft ui client).fst.draft.id)
  have hd := (countEvents_zero_iff _ _).mpr (pushDependencies_benign env client inputs)
  have hh := (countEvents_zero_iff _ _).mpr (pushHosting_benign client inputs)
  unfold pushDeployPhase
  rcases herr : (createNewDraft ui client).fst.err with _ | e0
  · by_cases hproc : (createNewDraft ui client).fst.proceed = false
    · simp [herr, hproc, countEvents_append, countEvents_cons, countEvents_nil,
        Event.isPromptOrCreateApp, hc]
    · rcases himp : client.importResp with _ | e1
      · rcases hw1 : (deployDraftAndWait client (createNewDraft ui client).fst.draft.id).fst
          with _ | e2 | _
        · rcases hd1 : (pushDependencies env client inputs).fst with _ | e3 | _
          · rcases hh1 : (pushHosting client inputs).fst with _ | e4 | _ <;>
              simp [herr, hproc, himp, hw1, hd1, hh1, countEvents_append, countEvents_cons,
                countEvents_nil, Event.isPromptOrCreateApp, hc, hw, hd, hh]
          · simp [herr, hproc, himp, hw1, hd1, countEvents_append, countEvents_cons,
              countEvents_nil, Event.isPromptOrCreateApp, hc, hw, hd]
          · simp [herr, hproc, himp, hw1, hd1, countEvents_append, countEvents_cons,
              countEvents_nil, Event.isPromptOrCreateApp, hc, hw, hd]
        · simp [herr, hproc, himp, hw1, countEvents_append, countEvents_cons,
            countEvents_nil, Event.isPromptOrCreateApp, hc, hw]
        · simp [herr, hproc, himp, hw1, countEvents_append, countEvents_cons,
            countEvents_nil, Event.isPromptOrCreateApp, hc, hw]
      · simp [herr, hproc, himp, countEvents_append, countEvents_cons, countEvents_nil,
          Event.isPromptOrCreateApp, hc]
  · simp [herr, countEvents_append, countEvents_cons, countEvents_nil,
      Event.isPromptOrCreateApp, hc]

theorem pushAfterApp_auto_count (ui : UI) (env : LocalEnv) (client : RealmClient)
    (inputs : PushInputs) (b : Bool) (hauto : ui.autoConfirm = true) :
    countEvents Event.isPromptOrCreateApp (pushAfterApp ui env client inputs b).snd = 0 := by
  have hp := pushDeployPhase_auto_count ui env client inputs hauto
  unfold pushAfterApp
  rcases h1 : client.diffResp with e | ds
  · simp [countEvents, Event.isPromptOrCreateApp]
  · rcases h2 : env.findAppHostingResp with e | u
    · simp [countEvents, Event.isPromptOrCreateApp]
    · by_cases hih : inputs.includeHosting = true
      · rcases h3 : client.hostingAssetsResp with e | u2
        · simp [hih, h3, countEvents, Event.isPromptOrCreateApp]
        · rcases h4 : env.hostingDiffsResp with e | hdv
          · simp [hih, h3, h4, countEvents, Event.isPromptOrCreateApp]
          · by_cases hempty : (ds = [] ∧ inputs.includeDependencies = false ∧ hdv.size = 0)
            · simp [hih, h3, h4, hempty, countEvents, Event.isPromptOrCreateApp]
            · by_cases hdry : inputs.dryRun = true
              · simp [hih, h3, h4, hempty, hdry, hauto, countEvents, Event.isPromptOrCreateApp]
              · simp [hih, h3, h4, hempty, hdry, hauto, countEvents_append, countEvents_cons,
                  countEvents_nil, Event.isPromptOrCreateApp, hp]
      · by_cases hempty : (ds = [] ∧ inputs.includeDependencies = false ∧
          HostingDiffs.empty.size = 0)
        · simp [hih, hempty, countEvents, Event.isPromptOrCreateApp]
        · by_cases hdry : inputs.dryRun = true
          · simp [hih, hempty, hdry, hauto, countEvents, Event.isPromptOrCreateApp]
          · simp [hih, hempty, hdry, hauto, countEvents_append, countEvents_cons,
              countEvents_nil, Event.isPromptOrCreateApp, hp]

/-- C7 counterexample: an auto-confirm push that creates a new app whose local
data yields an empty app name still invokes the interactive App Name prompt,
and the CreateApp call then uses the prompted reply rather than a value derived
from the local data. This refutes the claim that with auto-confirm no
interactive prompt is invoked at any decision point. -/
theorem claim7_counterexample :
    baseUI.autoConfirm = true ∧
    countEvents Event.isPrompt
      (pushHandler baseUI baseEnv baseClient basePushInputs newAppTarget
        (some emptyNameAppData)).snd = 1 ∧
    Event.callCreateApp ("group1") ("asked-name") ("location1") ("model1") ∈
      (pushHandler baseUI baseEnv baseClient basePushInputs newAppTarget
        (some emptyNameAppData)).snd := by
  refine ⟨rfl, by decide, by decide⟩

/-- C7 amended: with auto-confirm set and local AppData yielding a non-empty
app name, no interactive prompt is invoked at any decision point of the push
flow, and every CreateApp call of the run uses the group id and the
name/location/deployment-model values derived from the local AppData verbatim.
(When the derived name is empty the name prompt is still shown, as the
counterexample records.) -/
theorem claim7_amended (ui : UI) (env : LocalEnv) (client : RealmClient)
    (inputs : PushInputs) (target : To) (appData : Option AppData)
    (hauto : ui.autoConfirm = true)
    (hname : derivedName appData ≠ "") :
    countEvents Event.isPrompt (pushHandler ui env client inputs target appData).snd = 0 ∧
    (∀ g n l dm,
      Event.callCreateApp g n l dm ∈ (pushHandler ui env client inputs target appData).snd →
      g = target.groupID ∧ n = derivedName appData ∧ l = derivedLocation appData ∧
      dm = derivedDeploymentModel appData) := by
  have htA := pushAfterApp_auto_count ui env client inputs true hauto
  have htB := pushAfterApp_auto_count ui env client inputs false hauto
  unfold pushHandler
  by_cases happ : target.appID = ""
  · rw [if_pos happ]
    by_cases hdry : inputs.dryRun = true
    · constructor
      · simp [hdry, countEvents, Event.isPrompt]
      · intro g n l dm hmem
        simp [hdry] at hmem
    · rw [createNewApp_auto_eq ui env client target.groupID appData hauto hname]
      have hpa := countPrompt_of_benign _ htA
      rcases hfe : (createAppCall env client target.groupID (derivedName appData)
        (derivedLocation appData) (derivedDeploymentModel appData)).fst.err with _ | e0
      · by_cases hproc : (createAppCall env client target.groupID (derivedName appData)
          (derivedLocation appData) (derivedDeploymentModel appData)).fst.proceed = true
        · constructor
          · simp [hdry, hfe, hproc, createAppCall_snd, countEvents_append, countEvents_cons,
              countEvents_nil, Event.isPrompt, hpa]
          · intro g n l dm hmem
            simp [hdry, hfe, hproc, createAppCall_snd] at hmem
            rcases hmem with ⟨hg, hn, hl, hdm⟩ | hmem
            · exact ⟨hg, hn, hl, hdm⟩
            · have := (countEvents_zero_iff _ _).mp htA _ hmem
              simp [Event.isPromptOrCreateApp] at this
        · constructor
          · simp [hdry, hfe, hproc, createAppCall_snd, countEvents_cons, countEvents_nil,
              Event.isPrompt]
          · intro g n l dm hmem
            simp [hdry, hfe, hproc, createAppCall_snd] at hmem
            exact ⟨hmem.1, hmem.2.1, hmem.2.2.1, hmem.2.2.2⟩
      · constructor
        · simp [hdry, hfe, createAppCall_snd, countEvents_cons, countEvents_nil, Event.isPrompt]
        · intro g n l dm hmem
          simp [hdry, hfe, createAppCall_snd] at hmem
          exact ⟨hmem.1, hmem.2.1, hmem.2.2.1, hmem.2.2.2⟩
  · rw [if_neg happ]
    constructor
    · exact countPrompt_of_benign _ htB
    · intro g n l dm hmem
      have := (countEvents_zero_iff _ _).mp htB _ hmem
      simp [Event.isPromptOrCreateApp] at this

/-- C7 amended witness: an auto-confirm new-app run whose local data has the
non-empty name name1; no prompt is shown and every CreateApp call uses the
derived values verbatim. -/
theorem claim7_witness :
    countEvents Event.isPrompt
      (pushHandler baseUI baseEnv baseClient basePushInputs newAppTarget
        (some baseAppData)).snd = 0 ∧
    (∀ g n l dm,
      Event.callCreateApp g n l dm ∈
        (pushHandler baseUI baseEnv baseClient basePushInputs newAppTarget
          (some baseAppData)).snd →
      g = newAppTarget.groupID ∧ n = derivedName (some baseAppData) ∧
      l = derivedLocation (some baseAppData) ∧
      dm = derivedDeploymentModel (some baseAppData)) :=
  claim7_amended baseUI baseEnv baseClient basePushInputs newAppTarget (some baseAppData)
    rfl (by decide)

end RealmCli
